import Mathlib

/-!
Verification of the orchestration logic of src/atualiza_chromedriver.py.

The script is a linear pipeline: resolve the latest stable driver version
from a metadata endpoint, compare it with a locally stored marker file,
and if they differ download the artifact, hash it, rewrite the marker,
publish via git (add / commit / push / tag / push tag) and send a desktop
message.  We embed the program shallowly: the outside world (network,
filesystem, git, desktop) is an explicit value, and every externally
visible action of the program is recorded as an event in a trace.
Python string operations used by the script (strip, splitlines) are
modelled by structurally recursive functions over the character list so
that every definition evaluates inside the kernel.
-/

namespace AutodriverStorage

/-- Model of Python str.isspace-style whitespace used by str.strip. -/
def pyIsSpace (c : Char) : Bool :=
  c = ' ' || c = '\t' || c = '\n' || c = '\r' || c = '\x0b' || c = '\x0c'

/-- Model of Python str.strip: drop leading and trailing whitespace. -/
def pyStrip (s : String) : String :=
  String.mk (((s.data.dropWhile pyIsSpace).reverse.dropWhile pyIsSpace).reverse)

/-- Helper for pySplitlines: split a character list at newline characters. -/
def splitlinesAux : List Char → List Char → List (List Char)
  | [], acc => [acc.reverse]
  | c :: rest, acc =>
    if c = '\n' then acc.reverse :: splitlinesAux rest []
    else splitlinesAux rest (c :: acc)

/-- Model of Python str.splitlines for newline-separated text: a trailing
newline does not produce a final empty segment, and the empty string has
no lines. -/
def pySplitlines (s : String) : List String :=
  if s.data = [] then []
  else
    let parts := (splitlinesAux s.data []).map (fun l => String.mk l)
    if s.data.getLast? = some '\n' then parts.dropLast else parts

/-- One per-platform download descriptor from the metadata JSON
(an element of channels.Stable.downloads.chromedriver). -/
structure Download where
  platform : String
  url : String
deriving DecidableEq

/-- Outcome of the metadata GET in obter_ultima_versao_e_url: a transport
or HTTP-status failure (requests raises), a malformed document (a missing
key raises KeyError), or the parsed stable channel: its version string
and its chromedriver download list. -/
inductive MetaFetch where
  | netError
  | keyMissing (key : String)
  | ok (version : String) (downloads : List Download)
deriving DecidableEq

/-- The Python exceptions that can cross function boundaries inside
main's try block. The catch-all arm other stands for any further
Exception subclass (OSError from file operations and the like). -/
inductive PyError where
  | requestException
  | valueError (msg : String)
  | keyError (key : String)
  | other (msg : String)
deriving DecidableEq

/-- Result of spawning one git command: exit code, captured stdout and
captured stderr of the process. -/
structure CmdRes where
  code : Nat
  stdout : String
  stderr : String
deriving DecidableEq

/-- The git-side world for one publish invocation: whether the git
executable is on PATH, whether the repository directory exists (os.chdir
raises FileNotFoundError when it does not), and what each spawned
command returns. -/
structure GitEnv where
  gitInstalled : Bool
  repoExists : Bool
  exec : List String → CmdRes

/-- Errors raised inside git_push_com_tag's try block:
FileNotFoundError (executable or directory missing) and
subprocess.CalledProcessError. The stderr field is the exception's
stderr attribute, which is None for commands run without output
capture. -/
inductive GitError where
  | fileNotFound
  | calledProcess (cmd : List String) (stderr : Option String)
deriving DecidableEq

/-- Externally visible actions of one run, in program order. The chdir
events record every os.chdir call; gitCmd records each spawned git
command together with the working directory it runs in; the log events
record the script's console messages. -/
inductive Event where
  | mkdirs (path : String)
  | netGetMeta
  | download (url : String) (path : String)
  | hashFile (path : String)
  | writeFile (path : String) (content : String)
  | chdir (path : String)
  | gitCmd (cwd : String) (args : List String)
  | notifyAttempt (title : String) (message : String)
  | logConfigMissing
  | logUpToDate
  | logSkipCommit
  | logTagExists
  | logToolNotFound
  | logCmdError (stderr : Option String)
  | logNotifyFail
  | logNetError
  | logDataError
  | logUnexpected
  | logDone
deriving DecidableEq

/-- Console output observable at the public interface. -/
def Event.isLog : Event → Bool
  | .logConfigMissing => true
  | .logUpToDate => true
  | .logSkipCommit => true
  | .logTagExists => true
  | .logToolNotFound => true
  | .logCmdError _ => true
  | .logNotifyFail => true
  | .logNetError => true
  | .logDataError => true
  | .logUnexpected => true
  | .logDone => true
  | _ => false

/-- The log lines of a trace. -/
def logsOf (evs : List Event) : List Event :=
  evs.filter Event.isLog

/-- Effect of one event on the process working directory. -/
def stepCwd (c : String) (e : Event) : String :=
  match e with
  | .chdir p => p
  | _ => c

/-- Working directory after a trace, starting from a given directory. -/
def cwdAfter (start : String) (evs : List Event) : String :=
  evs.foldl stepCwd start

/-- Fixed artifact file name (module constant ZIP_NAME). -/
def ZIP_NAME : String := "chromedriver-win64.zip"

/-- Fixed marker file name (module constant VERSION_FILE). -/
def VERSION_FILE : String := "version.txt"

/-- Model of os.path.join for the two fixed joins performed by main. -/
def joinPath (a b : String) : String := a ++ "/" ++ b

/-- Full path of the downloaded artifact (caminho_zip in main). -/
def caminho_zip (base : String) : String := joinPath base ZIP_NAME

/-- Full path of the version marker file (caminho_version in main). -/
def caminho_version (base : String) : String := joinPath base VERSION_FILE

/-- State-store read ler_versao_salva: the stripped file contents when
the file exists, else the no-prior-version value None. The filesystem is
a partial map from path to contents. -/
def ler_versao_salva (fs : String → Option String) (path : String) : Option String :=
  match fs path with
  | some contents => some (pyStrip contents)
  | none => none

/-- State-store write salvar_versao: overwrite the file at path with the
version string. -/
def salvar_versao (fs : String → Option String) (path : String) (version : String) :
    String → Option String :=
  fun p => if p = path then some version else fs p

/-- Version resolver obter_ultima_versao_e_url, applied to the outcome
of the metadata GET: a network failure propagates as a requests
exception, a missing key as KeyError, and a present stable channel is
searched for the first descriptor whose platform is win64; absence is a
ValueError, presence returns the version string and that descriptor's
URL unchanged. -/
def obter_ultima_versao_e_url (m : MetaFetch) : Except PyError (String × String) :=
  match m with
  | .netError => .error .requestException
  | .keyMissing k => .error (.keyError k)
  | .ok version downloads =>
    match downloads.find? (fun item => item.platform == "win64") with
    | none => .error (.valueError "URL do chromedriver-win64.zip nao encontrada no JSON")
    | some d => .ok (version, d.url)

/-- Argument vector of the status query git status --porcelain files. -/
def statusCmd (files : List String) : List String :=
  ["git", "status", "--porcelain"] ++ files

/-- Argument vector of git add files. -/
def addCmd (files : List String) : List String :=
  ["git", "add"] ++ files

/-- Argument vector of git commit -m message. -/
def commitCmd (message : String) : List String :=
  ["git", "commit", "-m", message]

/-- Argument vector of git push. -/
def pushCmd : List String := ["git", "push"]

/-- Argument vector of the tag listing git tag. -/
def tagListCmd : List String := ["git", "tag"]

/-- Argument vector of git tag tagname. -/
def tagCreateCmd (tag : String) : List String := ["git", "tag", tag]

/-- Argument vector of git push origin tagname. -/
def tagPushCmd (tag : String) : List String := ["git", "push", "origin", tag]

/-- Result of subprocess.run with check enabled: FileNotFoundError when
the executable is absent, CalledProcessError on a non-zero exit — its
stderr attribute holds the captured stderr only when the command was run
with capture_output, and is None otherwise. -/
def runRes (env : GitEnv) (capture : Bool) (args : List String) : Except GitError CmdRes :=
  if env.gitInstalled then
    let r := env.exec args
    if r.code = 0 then .ok r
    else .error (.calledProcess args (if capture then some r.stderr else none))
  else .error .fileNotFound

/-- Events of one subprocess.run call: the command is spawned (and hence
recorded) exactly when the executable exists. -/
def runEvs (env : GitEnv) (repo : String) (args : List String) : List Event :=
  if env.gitInstalled then [Event.gitCmd repo args] else []

/-- The staging half of git_push_com_tag: skip with a log line when the
scoped status output strips to empty, otherwise add, commit and push in
order, stopping at the first failing command. -/
def commitPhase (env : GitEnv) (repo : String) (files : List String) (message : String)
    (statusOut : String) : List Event × Option GitError :=
  if pyStrip statusOut = "" then ([Event.logSkipCommit], none)
  else
    match runRes env false (addCmd files) with
    | .error e => (runEvs env repo (addCmd files), some e)
    | .ok _ =>
      match runRes env false (commitCmd message) with
      | .error e => (runEvs env repo (addCmd files) ++ runEvs env repo (commitCmd message), some e)
      | .ok _ =>
        match runRes env false pushCmd with
        | .error e =>
          (runEvs env repo (addCmd files) ++ runEvs env repo (commitCmd message) ++
            runEvs env repo pushCmd, some e)
        | .ok _ =>
          (runEvs env repo (addCmd files) ++ runEvs env repo (commitCmd message) ++
            runEvs env repo pushCmd, none)

/-- The tag half of git_push_com_tag: list tags, skip with a log line
when the tag is already present among the listed lines, otherwise create
the tag and push it to origin, stopping at the first failing command. -/
def tagPhase (env : GitEnv) (repo : String) (tag : String) : List Event × Option GitError :=
  match runRes env true tagListCmd with
  | .error e => (runEvs env repo tagListCmd, some e)
  | .ok tr =>
    if tag ∈ pySplitlines tr.stdout then
      (runEvs env repo tagListCmd ++ [Event.logTagExists], none)
    else
      match runRes env false (tagCreateCmd tag) with
      | .error e => (runEvs env repo tagListCmd ++ runEvs env repo (tagCreateCmd tag), some e)
      | .ok _ =>
        match runRes env false (tagPushCmd tag) with
        | .error e =>
          (runEvs env repo tagListCmd ++ runEvs env repo (tagCreateCmd tag) ++
            runEvs env repo (tagPushCmd tag), some e)
        | .ok _ =>
          (runEvs env repo tagListCmd ++ runEvs env repo (tagCreateCmd tag) ++
            runEvs env repo (tagPushCmd tag), none)

/-- Body of the with-block of git_push_com_tag: the scoped status query,
then the staging half, then — only if staging raised nothing — the tag
half. The second component is the first uncaught exception of the
block. -/
def gitBody (env : GitEnv) (repo : String) (files : List String) (tag : String)
    (message : String) : List Event × Option GitError :=
  match runRes env true (statusCmd files) with
  | .error e => (runEvs env repo (statusCmd files), some e)
  | .ok st =>
    match (commitPhase env repo files message st.stdout).2 with
    | some e =>
      (runEvs env repo (statusCmd files) ++ (commitPhase env repo files message st.stdout).1,
        some e)
    | none =>
      (runEvs env repo (statusCmd files) ++ (commitPhase env repo files message st.stdout).1 ++
        (tagPhase env repo tag).1, (tagPhase env repo tag).2)

/-- Console line produced by each handler of git_push_com_tag:
FileNotFoundError logs the tool-not-found message, CalledProcessError
logs the command error with the exception's stderr attribute. -/
def errEvents : Option GitError → List Event
  | none => []
  | some .fileNotFound => [Event.logToolNotFound]
  | some (.calledProcess _ st) => [Event.logCmdError st]

/-- Publisher git_push_com_tag. change_dir first records the current
directory, then switches into the repository; its finally clause
switches back before any handler runs, so the trace always restores cwd
before the error log. When the repository directory itself is missing,
os.chdir raises FileNotFoundError before any command is spawned, the
finally clause still restores the original directory, and the same
FileNotFoundError handler logs the tool-not-found message. Both
handlers swallow the exception, so the function always returns. -/
def git_push_com_tag (env : GitEnv) (cwd repo : String) (files : List String)
    (tag message : String) : List Event :=
  if env.repoExists then
    Event.chdir repo ::
      ((gitBody env repo files tag message).1 ++
        ([Event.chdir cwd] ++ errEvents (gitBody env repo files tag message).2))
  else
    [Event.chdir cwd, Event.logToolNotFound]

/-- Notifier notificar: the desktop call is attempted, and any failure
of the backend is caught and logged as a warning. -/
def notificar (delivered : Bool) (title message : String) : List Event :=
  Event.notifyAttempt title message ::
    (if delivered then [] else [Event.logNotifyFail])

/-- The whole outside world of one run: the configured repository path
(CHROMEDRIVER_PATH, where the empty string is falsy in Python and hence
treated as unset), whether os.makedirs succeeds, the metadata outcome,
the filesystem, whether the artifact GET succeeds, whether the desktop
message is delivered, and the git environment. -/
structure World where
  chromedriverPath : Option String
  makedirsOk : Bool
  meta : MetaFetch
  fs : String → Option String
  downloadOk : Bool
  notifyOk : Bool
  git : GitEnv

/-- Body of main's try block, given the configured base path and the
current working directory. Returns the events of the block and the
exception leaving it, if any. The resolver's GET is always attempted
first; on success the marker is read and compared, and an equal marker
ends the block at once; otherwise the artifact GET is attempted (a
transport failure leaves the download event but raises), then the hash,
the marker rewrite, the publish step and the desktop message follow, and
the publish and message steps never raise. -/
def mainTry (w : World) (base cwd : String) : List Event × Option PyError :=
  match obter_ultima_versao_e_url w.meta with
  | .error e => ([Event.netGetMeta], some e)
  | .ok (version, url) =>
    if ler_versao_salva w.fs (caminho_version base) = some version then
      ([Event.netGetMeta, Event.logUpToDate], none)
    else
      if w.downloadOk then
        ([Event.netGetMeta, Event.download url (caminho_zip base),
          Event.hashFile (caminho_zip base),
          Event.writeFile (caminho_version base) version] ++
          git_push_com_tag w.git cwd base [ZIP_NAME, VERSION_FILE]
            ("v" ++ version)
            ("Atualiza ChromeDriver para a versao " ++ version) ++
          notificar w.notifyOk "ChromeDriver Atualizado"
            ("Versao " ++ version ++ " baixada e enviada para o GitHub.") ++
          [Event.logDone], none)
      else
        ([Event.netGetMeta, Event.download url (caminho_zip base)],
          some .requestException)

/-- Console line of each of main's three handlers. -/
def errLog : PyError → Event
  | .requestException => Event.logNetError
  | .valueError _ => Event.logDataError
  | .keyError _ => Event.logDataError
  | .other _ => Event.logUnexpected

/-- Orchestrator main. A missing or empty CHROMEDRIVER_PATH is the
pre-flight configuration error. os.makedirs runs before the try block,
so its failure escapes main uncaught — the second component of the
result is the exception escaping the entry point. Inside the try block
every raised exception is caught by one of the three handlers and turned
into a console line. -/
def main (w : World) (cwd : String) : List Event × Option PyError :=
  match w.chromedriverPath with
  | none => ([Event.logConfigMissing], none)
  | some base =>
    if base = "" then ([Event.logConfigMissing], none)
    else if w.makedirsOk then
      match mainTry w base cwd with
      | (evs, none) => (Event.mkdirs base :: evs, none)
      | (evs, some e) => (Event.mkdirs base :: (evs ++ [errLog e]), none)
    else
      ([Event.mkdirs base], some (.other "makedirs raised OSError"))

/-- C3: writing version V with salvar_versao and then reading it back
with ler_versao_salva yields V with no transformation beyond whitespace
stripping — exactly V whenever V carries no surrounding whitespace — and
reading a path whose file does not exist returns the no-prior-version
value none, never failing. -/
theorem C3_marker_round_trip (fs : String → Option String) (path V : String) :
    ler_versao_salva (salvar_versao fs path V) path = some (pyStrip V)
    ∧ (pyStrip V = V → ler_versao_salva (salvar_versao fs path V) path = some V)
    ∧ (fs path = none → ler_versao_salva fs path = none) := by
  refine ⟨?_, ?_, ?_⟩
  · simp [ler_versao_salva, salvar_versao]
  · intro h
    simp [ler_versao_salva, salvar_versao, h]
  · intro h
    simp [ler_versao_salva, h]

/-- Witness for C3 at a concrete store and version string. -/
theorem C3_marker_round_trip_witness :
    ler_versao_salva (salvar_versao (fun _ => none) "/repo/version.txt" "131.0.6778.204")
        "/repo/version.txt" = some "131.0.6778.204"
    ∧ ler_versao_salva (fun _ => none) "/repo/version.txt" = none := by
  exact ⟨(C3_marker_round_trip (fun _ => none) "/repo/version.txt" "131.0.6778.204").2.1
            (by decide),
         (C3_marker_round_trip (fun _ => none) "/repo/version.txt" "131.0.6778.204").2.2 rfl⟩

/-- C4: when the stable channel's chromedriver download list has no
win64 descriptor, the resolver fails with the ValueError carrying the
not-found message and no run with that metadata ever records a request
to an artifact URL; when a win64 descriptor is found, the resolver
returns the stable version string and that descriptor's URL unchanged. -/
theorem C4_win64_descriptor (version : String) (downloads : List Download) :
    (downloads.find? (fun item => item.platform == "win64") = none →
      obter_ultima_versao_e_url (.ok version downloads) =
        .error (.valueError "URL do chromedriver-win64.zip nao encontrada no JSON")
      ∧ ∀ (w : World) (cwd : String), w.meta = .ok version downloads →
          ∀ u p, Event.download u p ∉ (main w cwd).1)
    ∧ (∀ d, downloads.find? (fun item => item.platform == "win64") = some d →
        obter_ultima_versao_e_url (.ok version downloads) = .ok (version, d.url)) := by
  constructor
  · intro h
    refine ⟨by simp [obter_ultima_versao_e_url, h], ?_⟩
    intro w cwd hm u p
    have hres : obter_ultima_versao_e_url w.meta =
        .error (.valueError "URL do chromedriver-win64.zip nao encontrada no JSON") := by
      rw [hm]
      simp [obter_ultima_versao_e_url, h]
    cases hcp : w.chromedriverPath with
    | none => simp [main, hcp]
    | some base =>
      by_cases hb : base = ""
      · simp [main, hcp, hb]
      · by_cases hmk : w.makedirsOk
        · simp [main, hcp, hb, hmk, mainTry, hres, errLog]
        · simp [main, hcp, hb, hmk]
  · intro d h
    simp [obter_ultima_versao_e_url, h]

/-- Witness for C4 at concrete download lists with and without a win64
descriptor. -/
theorem C4_win64_descriptor_witness :
    obter_ultima_versao_e_url
        (.ok "131.0.6778.204" [{ platform := "linux64", url := "url-linux" }]) =
      .error (.valueError "URL do chromedriver-win64.zip nao encontrada no JSON")
    ∧ obter_ultima_versao_e_url
        (.ok "131.0.6778.204" [{ platform := "win64", url := "url-win" }]) =
      .ok ("131.0.6778.204", "url-win") := by
  exact ⟨((C4_win64_descriptor "131.0.6778.204"
            [{ platform := "linux64", url := "url-linux" }]).1 (by decide)).1,
         (C4_win64_descriptor "131.0.6778.204"
            [{ platform := "win64", url := "url-win" }]).2
            { platform := "win64", url := "url-win" } (by decide)⟩

/-- The metadata request is always attempted inside main's try block. -/
theorem netGetMeta_mem_mainTry (w : World) (base cwd : String) :
    Event.netGetMeta ∈ (mainTry w base cwd).1 := by
  cases hobt : obter_ultima_versao_e_url w.meta with
  | error e => simp [mainTry, hobt]
  | ok p =>
    obtain ⟨v, u⟩ := p
    by_cases hsv : ler_versao_salva w.fs (caminho_version base) = some v
    · simp [mainTry, hobt, hsv]
    · by_cases hdl : w.downloadOk <;> simp [mainTry, hobt, hsv, hdl]

/-- C1: when the resolver succeeds and its version string equals the
stored marker after the read's stripping, main ends the run normally
having performed only the directory creation, the metadata request and
the up-to-date log line: no artifact download, no file write, no git
command and no desktop message. -/
theorem C1_up_to_date_no_side_effects (w : World) (cwd base version : String)
    (downloads : List Download) (d : Download)
    (hcp : w.chromedriverPath = some base) (hb : base ≠ "")
    (hmk : w.makedirsOk = true)
    (hm : w.meta = .ok version downloads)
    (hd : downloads.find? (fun item => item.platform == "win64") = some d)
    (hsaved : ler_versao_salva w.fs (caminho_version base) = some version) :
    main w cwd = ([Event.mkdirs base, Event.netGetMeta, Event.logUpToDate], none)
    ∧ (∀ u p, Event.download u p ∉ (main w cwd).1)
    ∧ (∀ p c, Event.writeFile p c ∉ (main w cwd).1)
    ∧ (∀ c a, Event.gitCmd c a ∉ (main w cwd).1)
    ∧ (∀ t m, Event.notifyAttempt t m ∉ (main w cwd).1) := by
  have hres : obter_ultima_versao_e_url w.meta = .ok (version, d.url) := by
    rw [hm]
    simp [obter_ultima_versao_e_url, hd]
  have hmain : main w cwd =
      ([Event.mkdirs base, Event.netGetMeta, Event.logUpToDate], none) := by
    simp [main, hcp, hb, hmk, mainTry, hres, hsaved]
  refine ⟨hmain, ?_, ?_, ?_, ?_⟩ <;> intro x y <;> rw [hmain] <;> simp

/-- World for the C1 witness: the marker already holds the resolved
version. -/
def wC1 : World :=
  { chromedriverPath := some "/repo"
    makedirsOk := true
    meta := .ok "131.0.6778.204" [{ platform := "win64", url := "url-win" }]
    fs := fun p => if p = "/repo/version.txt" then some "131.0.6778.204" else none
    downloadOk := true
    notifyOk := true
    git := { gitInstalled := true, repoExists := true, exec := fun _ => ⟨0, "", ""⟩ } }

/-- Witness for C1 at a concrete up-to-date world. -/
theorem C1_up_to_date_no_side_effects_witness :
    main wC1 "/home" = ([Event.mkdirs "/repo", Event.netGetMeta, Event.logUpToDate], none) :=
  (C1_up_to_date_no_side_effects wC1 "/home" "/repo" "131.0.6778.204"
    [{ platform := "win64", url := "url-win" }] { platform := "win64", url := "url-win" }
    rfl (by decide) rfl rfl (by decide) (by decide)).1

/-- C8: a marker file that exists but holds only whitespace reads back
as the empty string — not as the no-prior-version value — and since the
empty string differs from the non-empty resolved version, the run
records the artifact request exactly as a first run would. -/
theorem C8_whitespace_marker_downloads (w : World) (cwd base s version : String)
    (downloads : List Download) (d : Download)
    (hfile : w.fs (caminho_version base) = some s) (hws : pyStrip s = "")
    (hcp : w.chromedriverPath = some base) (hb : base ≠ "")
    (hmk : w.makedirsOk = true)
    (hm : w.meta = .ok version downloads)
    (hd : downloads.find? (fun item => item.platform == "win64") = some d)
    (hv : version ≠ "") :
    ler_versao_salva w.fs (caminho_version base) = some ""
    ∧ ler_versao_salva w.fs (caminho_version base) ≠ none
    ∧ Event.download d.url (caminho_zip base) ∈ (main w cwd).1 := by
  have hres : obter_ultima_versao_e_url w.meta = .ok (version, d.url) := by
    rw [hm]
    simp [obter_ultima_versao_e_url, hd]
  have hread : ler_versao_salva w.fs (caminho_version base) = some "" := by
    simp [ler_versao_salva, hfile, hws]
  have hne : ¬ ler_versao_salva w.fs (caminho_version base) = some version := by
    rw [hread]
    intro hcontra
    exact hv (Option.some.inj hcontra).symm
  refine ⟨hread, by rw [hread]; simp, ?_⟩
  by_cases hdl : w.downloadOk
  · simp [main, hcp, hb, hmk, mainTry, hres, hne, hdl]
  · simp [main, hcp, hb, hmk, mainTry, hres, hne, hdl, errLog]

/-- World for the C8 witness: the marker file holds only whitespace. -/
def wC8 : World :=
  { chromedriverPath := some "/repo"
    makedirsOk := true
    meta := .ok "131.0.6778.204" [{ platform := "win64", url := "url-win" }]
    fs := fun p => if p = "/repo/version.txt" then some " \n " else none
    downloadOk := true
    notifyOk := true
    git := { gitInstalled := true, repoExists := true, exec := fun _ => ⟨0, "", ""⟩ } }

/-- Witness for C8 at a concrete whitespace-only marker. -/
theorem C8_whitespace_marker_downloads_witness :
    ler_versao_salva wC8.fs (caminho_version "/repo") = some ""
    ∧ Event.download "url-win" (caminho_zip "/repo") ∈ (main wC8 "/home").1 := by
  have h := C8_whitespace_marker_downloads wC8 "/home" "/repo" " \n " "131.0.6778.204"
    [{ platform := "win64", url := "url-win" }] { platform := "win64", url := "url-win" }
    (by decide) (by decide) rfl (by decide) rfl rfl (by decide) (by decide)
  exact ⟨h.1, h.2.2⟩

/-- C9: whenever the repository path is configured, the directory
creation attempt is the very first action of the run — before the
metadata request and before the version comparison — so even a run that
ends up to date performs it; when creation succeeds the metadata request
follows later in the trace. -/
theorem C9_makedirs_before_network (w : World) (cwd base : String)
    (hcp : w.chromedriverPath = some base) (hb : base ≠ "") :
    (main w cwd).1.head? = some (Event.mkdirs base)
    ∧ (w.makedirsOk = true → Event.netGetMeta ∈ (main w cwd).1.tail) := by
  by_cases hmk : w.makedirsOk
  · have h := netGetMeta_mem_mainTry w base cwd
    cases hmt : mainTry w base cwd with
    | mk evs err =>
      rw [hmt] at h
      cases err with
      | none =>
        refine ⟨?_, fun _ => ?_⟩ <;> simp [main, hcp, hb, hmk, hmt]
        exact h
      | some e =>
        refine ⟨?_, fun _ => ?_⟩ <;> simp [main, hcp, hb, hmk, hmt]
        exact Or.inl h
  · refine ⟨by simp [main, hcp, hb, hmk], fun hcon => absurd hcon hmk⟩

/-- World for the C9 witness: an up-to-date run that still creates the
configured directory first. -/
def wC9 : World :=
  { chromedriverPath := some "/repo"
    makedirsOk := true
    meta := .ok "131.0.6778.204" [{ platform := "win64", url := "url-win" }]
    fs := fun p => if p = "/repo/version.txt" then some "131.0.6778.204" else none
    downloadOk := true
    notifyOk := true
    git := { gitInstalled := true, repoExists := true, exec := fun _ => ⟨0, "", ""⟩ } }

/-- Witness for C9 at a concrete configured world. -/
theorem C9_makedirs_before_network_witness :
    (main wC9 "/home").1.head? = some (Event.mkdirs "/repo")
    ∧ Event.netGetMeta ∈ (main wC9 "/home").1.tail := by
  have h := C9_makedirs_before_network wC9 "/home" "/repo" rfl (by decide)
  exact ⟨h.1, h.2 rfl⟩

/-- A successful subprocess result is the environment's answer for that
command. -/
theorem runRes_ok {env : GitEnv} {cap : Bool} {args : List String} {r : CmdRes}
    (h : runRes env cap args = .ok r) : r = env.exec args := by
  simp only [runRes] at h
  split at h
  · split at h
    · exact (Except.ok.inj h).symm
    · exact absurd h (by simp)
  · exact absurd h (by simp)

/-- A CalledProcessError produced by one subprocess call names that
call's argument vector, comes from a non-zero exit, and carries the
captured stderr exactly when the call captured output. -/
theorem runRes_error_cmd {env : GitEnv} {cap : Bool} {args c : List String}
    {st : Option String}
    (h : runRes env cap args = .error (.calledProcess c st)) :
    c = args ∧ (env.exec args).code ≠ 0 ∧
      st = (if cap then some (env.exec args).stderr else none) := by
  simp only [runRes] at h
  split at h
  · split at h
    · exact absurd h (by simp)
    · next hc =>
      obtain ⟨h1, h2⟩ := GitError.calledProcess.inj (Except.error.inj h)
      exact ⟨h1.symm, hc, h2.symm⟩
  · exact absurd (Except.error.inj h) (by simp)

/-- Every event recorded by one subprocess call is that call's command,
run in the publish step's working directory. -/
theorem mem_runEvs {env : GitEnv} {repo : String} {args : List String} {e : Event}
    (h : e ∈ runEvs env repo args) : e = Event.gitCmd repo args := by
  unfold runEvs at h
  split at h
  · simpa using h
  · simp at h

/-- Every event of the staging half is the skip log line or one of the
three staging commands run in the repository. -/
theorem commitPhase_events (env : GitEnv) (repo : String) (files : List String)
    (message statusOut : String) :
    ∀ e ∈ (commitPhase env repo files message statusOut).1,
      e = Event.logSkipCommit ∨ e = Event.gitCmd repo (addCmd files) ∨
      e = Event.gitCmd repo (commitCmd message) ∨ e = Event.gitCmd repo pushCmd := by
  intro e he
  unfold commitPhase at he
  split at he
  · simp at he
    exact Or.inl he
  · split at he
    · exact Or.inr (Or.inl (mem_runEvs he))
    · split at he
      · rcases List.mem_append.mp he with h1 | h1
        · exact Or.inr (Or.inl (mem_runEvs h1))
        · exact Or.inr (Or.inr (Or.inl (mem_runEvs h1)))
      · split at he
        all_goals
          rcases List.mem_append.mp he with h1 | h1
          · rcases List.mem_append.mp h1 with h2 | h2
            · exact Or.inr (Or.inl (mem_runEvs h2))
            · exact Or.inr (Or.inr (Or.inl (mem_runEvs h2)))
          · exact Or.inr (Or.inr (Or.inr (mem_runEvs h1)))

/-- Every event of the tag half is the tag-exists log line, the tag
listing, or — only when the tag was absent from the listing — the tag
creation or tag push, all run in the repository. -/
theorem tagPhase_events (env : GitEnv) (repo tag : String) :
    ∀ e ∈ (tagPhase env repo tag).1,
      e = Event.logTagExists ∨ e = Event.gitCmd repo tagListCmd ∨
      ((e = Event.gitCmd repo (tagCreateCmd tag) ∨ e = Event.gitCmd repo (tagPushCmd tag)) ∧
        tag ∉ pySplitlines (env.exec tagListCmd).stdout) := by
  intro e he
  unfold tagPhase at he
  split at he
  · exact Or.inr (Or.inl (mem_runEvs he))
  · next tr heq =>
    have htr : tr = env.exec tagListCmd := runRes_ok heq
    split at he
    · rcases List.mem_append.mp he with h1 | h1
      · exact Or.inr (Or.inl (mem_runEvs h1))
      · simp at h1
        exact Or.inl h1
    · next hguard =>
      rw [htr] at hguard
      split at he
      · rcases List.mem_append.mp he with h1 | h1
        · exact Or.inr (Or.inl (mem_runEvs h1))
        · exact Or.inr (Or.inr ⟨Or.inl (mem_runEvs h1), hguard⟩)
      · split at he
        all_goals
          rcases List.mem_append.mp he with h1 | h1
          · rcases List.mem_append.mp h1 with h2 | h2
            · exact Or.inr (Or.inl (mem_runEvs h2))
            · exact Or.inr (Or.inr ⟨Or.inl (mem_runEvs h2), hguard⟩)
          · exact Or.inr (Or.inr ⟨Or.inr (mem_runEvs h1), hguard⟩)

/-- Every event of the with-block body is one of the two skip log lines
or one of the seven git commands, each run in the repository, and the
tag creation and tag push occur only when the tag was absent from the
listing. -/
theorem gitBody_events (env : GitEnv) (repo : String) (files : List String)
    (tag message : String) :
    ∀ e ∈ (gitBody env repo files tag message).1,
      e = Event.logSkipCommit ∨ e = Event.logTagExists ∨
      e = Event.gitCmd repo (statusCmd files) ∨
      e = Event.gitCmd repo (addCmd files) ∨
      e = Event.gitCmd repo (commitCmd message) ∨
      e = Event.gitCmd repo pushCmd ∨
      e = Event.gitCmd repo tagListCmd ∨
      ((e = Event.gitCmd repo (tagCreateCmd tag) ∨ e = Event.gitCmd repo (tagPushCmd tag)) ∧
        tag ∉ pySplitlines (env.exec tagListCmd).stdout) := by
  intro e he
  unfold gitBody at he
  split at he
  · exact Or.inr (Or.inr (Or.inl (mem_runEvs he)))
  · split at he
    · rcases List.mem_append.mp he with h1 | h1
      · exact Or.inr (Or.inr (Or.inl (mem_runEvs h1)))
      · rcases commitPhase_events env repo files message _ e h1 with h2 | h2 | h2 | h2
        · exact Or.inl h2
        · exact Or.inr (Or.inr (Or.inr (Or.inl h2)))
        · exact Or.inr (Or.inr (Or.inr (Or.inr (Or.inl h2))))
        · exact Or.inr (Or.inr (Or.inr (Or.inr (Or.inr (Or.inl h2)))))
    · rcases List.mem_append.mp he with h1 | h1
      · rcases List.mem_append.mp h1 with h2 | h2
        · exact Or.inr (Or.inr (Or.inl (mem_runEvs h2)))
        · rcases commitPhase_events env repo files message _ e h2 with h3 | h3 | h3 | h3
          · exact Or.inl h3
          · exact Or.inr (Or.inr (Or.inr (Or.inl h3)))
          · exact Or.inr (Or.inr (Or.inr (Or.inr (Or.inl h3))))
          · exact Or.inr (Or.inr (Or.inr (Or.inr (Or.inr (Or.inl h3)))))
      · rcases tagPhase_events env repo tag e h1 with h2 | h2 | h2
        · exact Or.inr (Or.inl h2)
        · exact Or.inr (Or.inr (Or.inr (Or.inr (Or.inr (Or.inr (Or.inl h2))))))
        · exact Or.inr (Or.inr (Or.inr (Or.inr (Or.inr (Or.inr (Or.inr h2))))))

/-- A CalledProcessError leaving the staging half names one of the
three staging commands, comes from that command's non-zero exit, and —
because none of the three is run with output capture — carries None in
place of the command's stderr. -/
theorem commitPhase_err (env : GitEnv) (repo : String) (files : List String)
    (message statusOut : String) (c : List String) (st : Option String)
    (h : (commitPhase env repo files message statusOut).2 = some (.calledProcess c st)) :
    (env.exec c).code ≠ 0 ∧ st = none ∧
      (c = addCmd files ∨ c = commitCmd message ∨ c = pushCmd) := by
  unfold commitPhase at h
  split at h
  · simp at h
  · split at h
    · next e heq =>
      simp only [] at h
      obtain rfl : e = GitError.calledProcess c st := Option.some.inj h
      obtain ⟨h1, h2, h3⟩ := runRes_error_cmd heq
      subst h1
      simp only [if_neg Bool.false_ne_true, Bool.false_eq_true, if_false] at h3
      exact ⟨h2, by simpa using h3, Or.inl rfl⟩
    · split at h
      · next e heq =>
        simp only [] at h
        obtain rfl : e = GitError.calledProcess c st := Option.some.inj h
        obtain ⟨h1, h2, h3⟩ := runRes_error_cmd heq
        subst h1
        exact ⟨h2, by simpa using h3, Or.inr (Or.inl rfl)⟩
      · split at h
        · next e heq =>
          simp only [] at h
          obtain rfl : e = GitError.calledProcess c st := Option.some.inj h
          obtain ⟨h1, h2, h3⟩ := runRes_error_cmd heq
          subst h1
          exact ⟨h2, by simpa using h3, Or.inr (Or.inr rfl)⟩
        · simp at h

/-- A CalledProcessError leaving the tag half is either the captured tag
listing carrying its stderr, or the uncaptured tag creation or tag push
carrying None. -/
theorem tagPhase_err (env : GitEnv) (repo tag : String) (c : List String)
    (st : Option String)
    (h : (tagPhase env repo tag).2 = some (.calledProcess c st)) :
    (env.exec c).code ≠ 0 ∧
      ((c = tagListCmd ∧ st = some (env.exec tagListCmd).stderr) ∨
       ((c = tagCreateCmd tag ∨ c = tagPushCmd tag) ∧ st = none)) := by
  unfold tagPhase at h
  split at h
  · next e heq =>
    simp only [] at h
    obtain rfl : e = GitError.calledProcess c st := Option.some.inj h
    obtain ⟨h1, h2, h3⟩ := runRes_error_cmd heq
    subst h1
    exact ⟨h2, Or.inl ⟨rfl, by simpa using h3⟩⟩
  · split at h
    · simp at h
    · split at h
      · next e heq =>
        simp only [] at h
        obtain rfl : e = GitError.calledProcess c st := Option.some.inj h
        obtain ⟨h1, h2, h3⟩ := runRes_error_cmd heq
        subst h1
        exact ⟨h2, Or.inr ⟨Or.inl rfl, by simpa using h3⟩⟩
      · split at h
        · next e heq =>
          simp only [] at h
          obtain rfl : e = GitError.calledProcess c st := Option.some.inj h
          obtain ⟨h1, h2, h3⟩ := runRes_error_cmd heq
          subst h1
          exact ⟨h2, Or.inr ⟨Or.inr rfl, by simpa using h3⟩⟩
        · simp at h

/-- A CalledProcessError leaving the with-block body names one of the
seven git commands and comes from its non-zero exit; it carries the
command's stderr exactly for the two commands run with output capture
(the status query and the tag listing) and None for the other five. -/
theorem gitBody_err (env : GitEnv) (repo : String) (files : List String)
    (tag message : String) (c : List String) (st : Option String)
    (h : (gitBody env repo files tag message).2 = some (.calledProcess c st)) :
    (env.exec c).code ≠ 0 ∧
      (((c = statusCmd files ∨ c = tagListCmd) ∧ st = some (env.exec c).stderr) ∨
       ((c = addCmd files ∨ c = commitCmd message ∨ c = pushCmd ∨
          c = tagCreateCmd tag ∨ c = tagPushCmd tag) ∧ st = none)) := by
  unfold gitBody at h
  split at h
  · next e heq =>
    simp only [] at h
    obtain rfl : e = GitError.calledProcess c st := Option.some.inj h
    obtain ⟨h1, h2, h3⟩ := runRes_error_cmd heq
    subst h1
    exact ⟨h2, Or.inl ⟨Or.inl rfl, by simpa using h3⟩⟩
  · split at h
    · next e heq =>
      simp only [] at h
      obtain rfl : e = GitError.calledProcess c st := Option.some.inj h
      obtain ⟨h1, h2, h3⟩ := commitPhase_err env repo files message _ c st heq
      exact ⟨h1, Or.inr ⟨by tauto, h2⟩⟩
    · simp only [] at h
      obtain ⟨h1, h2⟩ := tagPhase_err env repo tag c st h
      rcases h2 with ⟨hc, hst⟩ | ⟨hc, hst⟩
      · exact ⟨h1, Or.inl ⟨Or.inr hc, by rw [hc]; exact hst⟩⟩
      · exact ⟨h1, Or.inr ⟨by tauto, hst⟩⟩

/-- C5: for every publish invocation the working directory after the
whole trace equals the starting directory — restoration happens on the
normal path, the skip paths and every exception path — and every git
command of the trace runs with the repository as its working
directory. -/
theorem C5_cwd_scoped_and_restored (env : GitEnv) (cwd repo : String)
    (files : List String) (tag message : String) :
    cwdAfter cwd (git_push_com_tag env cwd repo files tag message) = cwd
    ∧ ∀ c a, Event.gitCmd c a ∈ git_push_com_tag env cwd repo files tag message → c = repo := by
  constructor
  · by_cases hre : env.repoExists = true
    · have key : ∀ (evs : List Event) (err : Option GitError),
          cwdAfter cwd (Event.chdir repo :: (evs ++ ([Event.chdir cwd] ++ errEvents err))) =
            cwd := by
        intro evs err
        show List.foldl stepCwd cwd _ = cwd
        rw [List.foldl_cons, List.foldl_append, List.foldl_append]
        cases err with
        | none => rfl
        | some g => cases g <;> rfl
      simpa [git_push_com_tag, hre] using
        key (gitBody env repo files tag message).1 (gitBody env repo files tag message).2
    · simp [git_push_com_tag, hre, cwdAfter, stepCwd]
  · intro c a h
    by_cases hre : env.repoExists = true
    · unfold git_push_com_tag at h
      rw [if_pos hre] at h
      rcases List.mem_cons.mp h with h | h
      · exact absurd h (by simp)
      rcases List.mem_append.mp h with h | h
      · rcases gitBody_events env repo files tag message _ h with
          h1 | h1 | h1 | h1 | h1 | h1 | h1 | ⟨h1 | h1, _⟩
        all_goals first
          | exact (Event.gitCmd.inj h1).1
          | exact absurd h1 (by simp)
      rcases List.mem_append.mp h with h | h
      · simp at h
      · cases herr : (gitBody env repo files tag message).2 with
        | none => rw [herr] at h; simp [errEvents] at h
        | some g => rw [herr] at h; cases g <;> simp [errEvents] at h
    · unfold git_push_com_tag at h
      rw [if_neg hre] at h
      simp at h

/-- Environment for the C5 witness: a fully successful publish with
changes present and a fresh tag. -/
def envC5 : GitEnv :=
  { gitInstalled := true
    repoExists := true
    exec := fun _ => { code := 0, stdout := "x", stderr := "" } }

/-- Witness for C5 at a concrete successful publish. -/
theorem C5_cwd_scoped_and_restored_witness :
    cwdAfter "/home" (git_push_com_tag envC5 "/home" "/repo" [ZIP_NAME, VERSION_FILE]
      "v131" "msg") = "/home"
    ∧ "/repo" = "/repo" := by
  have h := C5_cwd_scoped_and_restored envC5 "/home" "/repo" [ZIP_NAME, VERSION_FILE]
    "v131" "msg"
  exact ⟨h.1, h.2 "/repo" (statusCmd [ZIP_NAME, VERSION_FILE]) (by decide)⟩

/-- C10: a publish invocation whose repository path does not exist fails
in os.chdir with FileNotFoundError, which the same handler as a missing
git executable turns into the tool-not-found log line; at the public
interface — console lines, issued commands, normal return — it is
indistinguishable from the missing-executable case. -/
theorem C10_missing_repo_indistinguishable (env env2 : GitEnv) (cwd repo : String)
    (files : List String) (tag message : String)
    (h1 : env.repoExists = false)
    (h2 : env2.repoExists = true) (h3 : env2.gitInstalled = false) :
    logsOf (git_push_com_tag env cwd repo files tag message) = [Event.logToolNotFound]
    ∧ logsOf (git_push_com_tag env2 cwd repo files tag message) = [Event.logToolNotFound]
    ∧ (∀ c a, Event.gitCmd c a ∉ git_push_com_tag env cwd repo files tag message)
    ∧ (∀ c a, Event.gitCmd c a ∉ git_push_com_tag env2 cwd repo files tag message) := by
  have hb2 : gitBody env2 repo files tag message = ([], some .fileNotFound) := by
    unfold gitBody
    simp [runRes, runEvs, h3]
  refine ⟨?_, ?_, ?_, ?_⟩
  · simp [git_push_com_tag, h1, logsOf, Event.isLog]
  · simp [git_push_com_tag, h2, hb2, errEvents, logsOf, Event.isLog]
  · intro c a
    simp [git_push_com_tag, h1]
  · intro c a
    simp [git_push_com_tag, h2, hb2, errEvents]

/-- Environment for the C10 witness: repository directory absent. -/
def envC10a : GitEnv :=
  { gitInstalled := true, repoExists := false, exec := fun _ => { code := 0, stdout := "", stderr := "" } }

/-- Environment for the C10 witness: git executable absent. -/
def envC10b : GitEnv :=
  { gitInstalled := false, repoExists := true, exec := fun _ => { code := 0, stdout := "", stderr := "" } }

/-- Witness for C10 at concrete environments for both failure modes. -/
theorem C10_missing_repo_indistinguishable_witness :
    logsOf (git_push_com_tag envC10a "/home" "/repo" [ZIP_NAME, VERSION_FILE] "v131" "msg") =
      [Event.logToolNotFound]
    ∧ logsOf (git_push_com_tag envC10b "/home" "/repo" [ZIP_NAME, VERSION_FILE] "v131" "msg") =
      [Event.logToolNotFound] := by
  have h := C10_missing_repo_indistinguishable envC10a envC10b "/home" "/repo"
    [ZIP_NAME, VERSION_FILE] "v131" "msg" rfl rfl rfl
  exact ⟨h.1, h.2.1⟩

/-- C7: a publish invocation in which the scoped status output strips to
empty and the tag already appears in the tag listing — the state git
leaves behind after a successful publish with no intervening file
changes — performs exactly the status query and the tag listing and
issues no add, commit, push, tag-creation or tag-push command; and in
every environment the tag-creation command is issued only when the tag
is absent from the listing, so the tag is created at most once per
version value. -/
theorem C7_publish_idempotent (env : GitEnv) (cwd repo : String) (files : List String)
    (tag message : String)
    (hgi : env.gitInstalled = true) (hre : env.repoExists = true)
    (hsc : (env.exec (statusCmd files)).code = 0)
    (hso : pyStrip (env.exec (statusCmd files)).stdout = "")
    (htc : (env.exec tagListCmd).code = 0)
    (htm : tag ∈ pySplitlines (env.exec tagListCmd).stdout) :
    git_push_com_tag env cwd repo files tag message =
      [Event.chdir repo, Event.gitCmd repo (statusCmd files), Event.logSkipCommit,
       Event.gitCmd repo tagListCmd, Event.logTagExists, Event.chdir cwd]
    ∧ Event.gitCmd repo (addCmd files) ∉ git_push_com_tag env cwd repo files tag message
    ∧ Event.gitCmd repo (commitCmd message) ∉ git_push_com_tag env cwd repo files tag message
    ∧ Event.gitCmd repo pushCmd ∉ git_push_com_tag env cwd repo files tag message
    ∧ Event.gitCmd repo (tagCreateCmd tag) ∉ git_push_com_tag env cwd repo files tag message
    ∧ Event.gitCmd repo (tagPushCmd tag) ∉ git_push_com_tag env cwd repo files tag message
    ∧ (∀ env3 : GitEnv, Event.gitCmd repo (tagCreateCmd tag) ∈
        git_push_com_tag env3 cwd repo files tag message →
        tag ∉ pySplitlines (env3.exec tagListCmd).stdout) := by
  have hbody : gitBody env repo files tag message =
      ([Event.gitCmd repo (statusCmd files), Event.logSkipCommit,
        Event.gitCmd repo tagListCmd, Event.logTagExists], none) := by
    unfold gitBody commitPhase tagPhase
    simp [runRes, runEvs, hgi, hsc, hso, htc, htm]
  have htr : git_push_com_tag env cwd repo files tag message =
      [Event.chdir repo, Event.gitCmd repo (statusCmd files), Event.logSkipCommit,
       Event.gitCmd repo tagListCmd, Event.logTagExists, Event.chdir cwd] := by
    simp [git_push_com_tag, hre, hbody, errEvents]
  refine ⟨htr, ?_, ?_, ?_, ?_, ?_, ?_⟩
  · rw [htr]
    simp [addCmd, statusCmd, tagListCmd]
  · rw [htr]
    simp [commitCmd, statusCmd, tagListCmd]
  · rw [htr]
    simp [pushCmd, statusCmd, tagListCmd]
  · rw [htr]
    simp [tagCreateCmd, statusCmd, tagListCmd]
  · rw [htr]
    simp [tagPushCmd, statusCmd, tagListCmd]
  · intro env3 hmem
    by_cases hre3 : env3.repoExists = true
    · unfold git_push_com_tag at hmem
      rw [if_pos hre3] at hmem
      rcases List.mem_cons.mp hmem with h | h
      · exact absurd h (by simp)
      rcases List.mem_append.mp h with h | h
      · rcases gitBody_events env3 repo files tag message _ h with
          h1 | h1 | h1 | h1 | h1 | h1 | h1 | ⟨h1 | h1, hg⟩
        · exact absurd h1 (by simp)
        · exact absurd h1 (by simp)
        · exact absurd (Event.gitCmd.inj h1).2 (by simp [tagCreateCmd, statusCmd])
        · exact absurd (Event.gitCmd.inj h1).2 (by simp [tagCreateCmd, addCmd])
        · exact absurd (Event.gitCmd.inj h1).2 (by simp [tagCreateCmd, commitCmd])
        · exact absurd (Event.gitCmd.inj h1).2 (by simp [tagCreateCmd, pushCmd])
        · exact absurd (Event.gitCmd.inj h1).2 (by simp [tagCreateCmd, tagListCmd])
        · exact hg
        · exact absurd (Event.gitCmd.inj h1).2 (by simp [tagCreateCmd, tagPushCmd])
      rcases List.mem_append.mp h with h | h
      · simp at h
      · cases herr : (gitBody env3 repo files tag message).2 with
        | none => rw [herr] at h; simp [errEvents] at h
        | some g => rw [herr] at h; cases g <;> simp [errEvents] at h
    · unfold git_push_com_tag at hmem
      rw [if_neg hre3] at hmem
      simp at hmem

/-- Environment for the C7 witness: clean status and a tag listing that
already contains the tag — the state after a first successful publish. -/
def envC7 : GitEnv :=
  { gitInstalled := true
    repoExists := true
    exec := fun args =>
      if args = tagListCmd then { code := 0, stdout := "v131\nv130", stderr := "" }
      else { code := 0, stdout := "", stderr := "" } }

/-- Witness for C7 at a concrete second invocation. -/
theorem C7_publish_idempotent_witness :
    git_push_com_tag envC7 "/home" "/repo" [ZIP_NAME, VERSION_FILE] "v131" "msg" =
      [Event.chdir "/repo", Event.gitCmd "/repo" (statusCmd [ZIP_NAME, VERSION_FILE]),
       Event.logSkipCommit, Event.gitCmd "/repo" tagListCmd, Event.logTagExists,
       Event.chdir "/home"] :=
  (C7_publish_idempotent envC7 "/home" "/repo" [ZIP_NAME, VERSION_FILE] "v131" "msg"
    rfl rfl (by decide) (by decide) (by decide) (by decide)).1

/-- C2 (amended): a missing git executable is reported as the distinct
tool-not-found log line; a command exiting non-zero is reported as a
command-error log line that carries the command's standard-error text
for the two output-capturing queries (status and tag listing) and the
None placeholder for the five uncaptured commands; both cases only log,
the publish step returns normally, and the orchestrator still attempts
the notification afterwards whatever the publish outcome. -/
theorem C2_publish_failure_semantics (env : GitEnv) (cwd repo : String)
    (files : List String) (tag message : String) :
    (env.repoExists = true → env.gitInstalled = false →
      git_push_com_tag env cwd repo files tag message =
        [Event.chdir repo, Event.chdir cwd, Event.logToolNotFound])
    ∧ (∀ c st, (gitBody env repo files tag message).2 = some (.calledProcess c st) →
        (env.exec c).code ≠ 0
        ∧ (((c = statusCmd files ∨ c = tagListCmd) ∧ st = some (env.exec c).stderr) ∨
           ((c = addCmd files ∨ c = commitCmd message ∨ c = pushCmd ∨
              c = tagCreateCmd tag ∨ c = tagPushCmd tag) ∧ st = none))
        ∧ (env.repoExists = true →
            git_push_com_tag env cwd repo files tag message =
              Event.chdir repo :: ((gitBody env repo files tag message).1 ++
                [Event.chdir cwd, Event.logCmdError st])))
    ∧ (∀ (w : World) (cwd2 base version : String) (downloads : List Download) (d : Download),
        w.chromedriverPath = some base → base ≠ "" → w.makedirsOk = true →
        w.meta = .ok version downloads →
        downloads.find? (fun item => item.platform == "win64") = some d →
        ler_versao_salva w.fs (caminho_version base) ≠ some version →
        w.downloadOk = true →
        Event.notifyAttempt "ChromeDriver Atualizado"
          ("Versao " ++ version ++ " baixada e enviada para o GitHub.") ∈ (main w cwd2).1) := by
  refine ⟨?_, ?_, ?_⟩
  · intro hre hgi
    have hb : gitBody env repo files tag message = ([], some .fileNotFound) := by
      unfold gitBody
      simp [runRes, runEvs, hgi]
    simp [git_push_com_tag, hre, hb, errEvents]
  · intro c st h
    obtain ⟨h1, h2⟩ := gitBody_err env repo files tag message c st h
    refine ⟨h1, h2, fun hre => ?_⟩
    simp [git_push_com_tag, hre, h, errEvents]
  · intro w cwd2 base version downloads d hcp hb hmk hm hd hne hdl
    have hres : obter_ultima_versao_e_url w.meta = .ok (version, d.url) := by
      rw [hm]
      simp [obter_ultima_versao_e_url, hd]
    simp [main, hcp, hb, hmk, mainTry, hres, hne, hdl, notificar]

/-- Environment for the C2 counterexample: git add exits non-zero with
standard-error text that — because add is run without output capture —
never reaches the command-error log line. -/
def envC2x : GitEnv :=
  { gitInstalled := true
    repoExists := true
    exec := fun args =>
      if args = addCmd [ZIP_NAME, VERSION_FILE] then
        { code := 1, stdout := "", stderr := "fatal: boom" }
      else { code := 0, stdout := " M version.txt", stderr := "" } }

/-- Counterexample to C2 as stated: the failing add command's stderr is
the text fatal: boom, yet the logged command error carries None, not
that text — the claim that a CommandError always carries the failed
command's standard-error text is false for the uncaptured commands. -/
theorem C2_stderr_counterexample :
    (envC2x.exec (addCmd [ZIP_NAME, VERSION_FILE])).stderr = "fatal: boom"
    ∧ git_push_com_tag envC2x "/home" "/repo" [ZIP_NAME, VERSION_FILE] "v131" "msg" =
        [Event.chdir "/repo",
         Event.gitCmd "/repo" (statusCmd [ZIP_NAME, VERSION_FILE]),
         Event.gitCmd "/repo" (addCmd [ZIP_NAME, VERSION_FILE]),
         Event.chdir "/home", Event.logCmdError none]
    ∧ Event.logCmdError (some "fatal: boom") ∉
        git_push_com_tag envC2x "/home" "/repo" [ZIP_NAME, VERSION_FILE] "v131" "msg" := by
  refine ⟨by decide, by decide, by decide⟩

/-- Environment for the C2 witness: git executable absent. -/
def envC2w : GitEnv :=
  { gitInstalled := false, repoExists := true
    exec := fun _ => { code := 0, stdout := "", stderr := "" } }

/-- Witness for C2 at a concrete missing-executable environment. -/
theorem C2_publish_failure_semantics_witness :
    git_push_com_tag envC2w "/home" "/repo" [ZIP_NAME, VERSION_FILE] "v131" "msg" =
      [Event.chdir "/repo", Event.chdir "/home", Event.logToolNotFound] :=
  (C2_publish_failure_semantics envC2w "/home" "/repo" [ZIP_NAME, VERSION_FILE]
    "v131" "msg").1 rfl rfl

/-- World for the C6 counterexample: the configured path cannot be
created as a directory (it exists as a regular file, say), so
os.makedirs — which runs before main's try block — raises and the
exception escapes the entry point. -/
def wC6x : World :=
  { chromedriverPath := some "/repo"
    makedirsOk := false
    meta := .ok "131.0.6778.204" [{ platform := "win64", url := "url-win" }]
    fs := fun _ => none
    downloadOk := true
    notifyOk := true
    git := { gitInstalled := true, repoExists := true
             exec := fun _ => { code := 0, stdout := "", stderr := "" } } }

/-- Counterexample to C6 as stated: with the repository path configured
but its directory creation failing, an exception escapes main, so the
top-level run does not return normally on every input. -/
theorem C6_escape_counterexample :
    wC6x.chromedriverPath = some "/repo"
    ∧ (main wC6x "/home").2 ≠ none := by
  exact ⟨rfl, by decide⟩

/-- C6 (amended): on every input whose directory creation succeeds, the
top-level run returns normally — every exception raised inside the try
block is caught by one of the three handlers — and each such error is
communicated as a console log line in the trace. -/
theorem C6_run_returns_normally (w : World) (cwd : String) (hmk : w.makedirsOk = true) :
    (main w cwd).2 = none
    ∧ (∀ base e, w.chromedriverPath = some base → base ≠ "" →
        (mainTry w base cwd).2 = some e → errLog e ∈ (main w cwd).1) := by
  constructor
  · cases hcp : w.chromedriverPath with
    | none => simp [main, hcp]
    | some base =>
      by_cases hb : base = ""
      · simp [main, hcp, hb]
      · cases hmt : mainTry w base cwd with
        | mk evs err =>
          cases err <;> simp [main, hcp, hb, hmk, hmt]
  · intro base e hcp hb hmt
    cases hmt2 : mainTry w base cwd with
    | mk evs err =>
      rw [hmt2] at hmt
      cases err with
      | none => exact absurd hmt (by simp)
      | some e2 =>
        obtain rfl : e2 = e := Option.some.inj hmt
        simp [main, hcp, hb, hmk, hmt2]

/-- World for the C6 witness: the metadata request fails on the network,
and the run still returns normally with the network-error log line. -/
def wC6 : World :=
  { chromedriverPath := some "/repo"
    makedirsOk := true
    meta := .netError
    fs := fun _ => none
    downloadOk := true
    notifyOk := true
    git := { gitInstalled := true, repoExists := true
             exec := fun _ => { code := 0, stdout := "", stderr := "" } } }

/-- Witness for C6 at a concrete failing-network world. -/
theorem C6_run_returns_normally_witness :
    (main wC6 "/home").2 = none ∧ errLog .requestException ∈ (main wC6 "/home").1 := by
  have h := C6_run_returns_normally wC6 "/home" rfl
  exact ⟨h.1, h.2 "/repo" .requestException rfl (by decide) rfl⟩

end AutodriverStorage
